import Mathlib

/-!
Verification development for the VIMA_Gen generation-verification-feedback
loop.  Python strings are modelled as `List Char` (`Str`): Python slicing,
`len`, `in`, `strip` and `"\n".join` become `List.take`, `List.length`,
`List.IsInfix`, whitespace-dropping and an explicit join.  The modelled
source files are `VIMA_Gen/failed_store.py`, `VIMA_Gen/verifier.py`,
`VIMA_Gen/cli.py` and `VIMA_Gen/task_index.py`.

Modelling conventions:
* `str.splitlines` is modelled as splitting on `'\n'` (Python also splits
  on `\r` and a few rarer separators; all text handled here is
  `\n`-separated).
* `str.strip` drops the ASCII whitespace characters (Python also strips
  some rarer Unicode whitespace).
* external effectful collaborators (exec of candidate code, the simulation
  environment, the file system, `json.load`) are modelled as explicit
  outcome values supplied as inputs, and the interpreters record the
  relevant effects (dynamic load, environment construction, teardown) in
  an event trace.
-/

set_option autoImplicit false

namespace VIMAGen

/-- Python `str`, modelled as a list of characters. -/
abbrev Str := List Char

/-- ASCII whitespace, the characters `str.strip` removes
(space, tab, newline, carriage return, vertical tab, form feed). -/
def isPyWs (c : Char) : Bool :=
  c = ' ' || c = '\t' || c = '\n' || c = '\r' || c = Char.ofNat 11 || c = Char.ofNat 12

/-- Python `s.strip()`: remove leading and trailing whitespace. -/
def pyStrip (s : Str) : Str :=
  ((s.dropWhile isPyWs).reverse.dropWhile isPyWs).reverse

/-- Split a character list at every `'\n'`; always returns at least one
(possibly empty) line.  `splitNL "a\nb" = ["a", "b"]`. -/
def splitNL : Str → List Str
  | [] => [[]]
  | c :: rest =>
    if c = '\n' then [] :: splitNL rest
    else
      match splitNL rest with
      | [] => [[c]]
      | h :: t => (c :: h) :: t

/-- Python `s.splitlines()` on `\n`-separated text: the empty string has
no lines, otherwise split at `'\n'`. -/
def pySplitlines (s : Str) : List Str :=
  if s = [] then [] else splitNL s

/-- Python `"\n".join(parts)`. -/
def pyJoinNL : List Str → Str
  | [] => []
  | [x] => x
  | x :: y :: t => x ++ '\n' :: pyJoinNL (y :: t)

/-- Python `l[-n:]`: the last `n` elements (all of `l` if `l` is shorter). -/
def lastN (n : Nat) {α : Type} (l : List α) : List α :=
  l.drop (l.length - n)

/-! ## `VIMA_Gen/failed_store.py` — the Failure Memory Store -/

/-- `CODE_SNIPPET_LINES = 35` (failed_store.py). -/
def CODE_SNIPPET_LINES : Nat := 35

/-- `MAX_ENTRIES = 25` (failed_store.py). -/
def MAX_ENTRIES : Nat := 25

/-- The truncation marker appended by `append_failed`:
`"# ... (truncated)"`. -/
def TRUNC_MARKER : Str := "# ... (truncated)".toList

/-- One stored failure record (the dict built in `append_failed`). -/
structure FailureEntry where
  task_name : Str
  failed_step : Int
  error : Str
  code_snippet : Str
  deriving DecidableEq, Repr

/-- The snippet built by `append_failed`:
`lines = code.strip().splitlines()`, keep the first `CODE_SNIPPET_LINES`
lines, and append the marker line when the original had more. -/
def mkSnippet (code : Str) : Str :=
  let lines := pySplitlines (pyStrip code)
  let snippet := pyJoinNL (lines.take CODE_SNIPPET_LINES)
  if CODE_SNIPPET_LINES < lines.length then snippet ++ '\n' :: TRUNC_MARKER
  else snippet

/-- The dict literal appended by `append_failed`.  (`task_name or ""` is
the identity on strings: a falsy string is already `""`.) -/
def mkEntry (code : Str) (failed_step : Int) (error_message : Str)
    (task_name : Str) : FailureEntry :=
  { task_name := task_name
    failed_step := failed_step
    error := pyStrip error_message
    code_snippet := mkSnippet code }

/-- `append_failed` (failed_store.py lines 30-54), as a pure transformer of
the stored list: append the new entry, then keep only the most recent
`MAX_ENTRIES` when over capacity.  The durable write is a full overwrite of
this list, so sequential appends compose through this function. -/
def append_failed (code : Str) (failed_step : Int) (error_message : Str)
    (task_name : Str) (store : List FailureEntry) : List FailureEntry :=
  let data := store ++ [mkEntry code failed_step error_message task_name]
  if MAX_ENTRIES < data.length then lastN MAX_ENTRIES data else data

/-- Argument tuple of one `append_failed` call:
`(code, failed_step, error_message, task_name)`. -/
abbrev AppendArgs := Str × Int × Str × Str

/-- Apply one `append_failed` call given as an argument tuple. -/
def applyAppend (store : List FailureEntry) (a : AppendArgs) : List FailureEntry :=
  append_failed a.1 a.2.1 a.2.2.1 a.2.2.2 store

/-- The entry that `append_failed` builds from an argument tuple. -/
def entryOfArgs (a : AppendArgs) : FailureEntry :=
  mkEntry a.1 a.2.1 a.2.2.1 a.2.2.2

/-! ### Basic facts about `lastN` (Python `l[-n:]`) -/

theorem lastN_of_length_le {α : Type} {n : Nat} {l : List α} (h : l.length ≤ n) :
    lastN n l = l := by
  unfold lastN
  rw [Nat.sub_eq_zero_of_le h, List.drop_zero]

theorem length_lastN {α : Type} (n : Nat) (l : List α) : (lastN n l).length ≤ n := by
  unfold lastN
  rw [List.length_drop]
  omega

theorem lastN_isSuffix {α : Type} (n : Nat) (l : List α) : lastN n l <:+ l :=
  List.drop_suffix _ _

theorem lastN_append_absorb {α : Type} (n : Nat) (xs ys : List α) :
    lastN n (lastN n xs ++ ys) = lastN n (xs ++ ys) := by
  by_cases h : xs.length ≤ n
  · rw [lastN_of_length_le h]
  · push_neg at h
    simp only [lastN, List.length_append, List.length_drop,
      List.drop_append_eq_append_drop, List.drop_drop]
    congr 1
    · congr 1
      omega
    · congr 1
      omega

theorem getLast?_lastN_concat {α : Type} {n : Nat} (hn : 0 < n) (l : List α) (e : α) :
    (lastN n (l ++ [e])).getLast? = some e := by
  unfold lastN
  rw [List.drop_append_eq_append_drop]
  have h1 : (l ++ [e]).length - n - l.length = 0 := by
    rw [List.length_append]; simp; omega
  rw [h1, List.drop_zero, List.getLast?_concat]

theorem append_failed_eq_lastN (code : Str) (s : Int) (err name : Str)
    (store : List FailureEntry) :
    append_failed code s err name store
      = lastN MAX_ENTRIES (store ++ [mkEntry code s err name]) := by
  simp only [append_failed]
  split
  · rfl
  · next h =>
    push_neg at h
    rw [lastN_of_length_le h]

theorem applyAppend_eq_lastN (store : List FailureEntry) (a : AppendArgs) :
    applyAppend store a = lastN MAX_ENTRIES (store ++ [entryOfArgs a]) :=
  append_failed_eq_lastN _ _ _ _ _

theorem foldl_applyAppend (batch : List AppendArgs) :
    ∀ init : List FailureEntry, batch ≠ [] →
      batch.foldl applyAppend init
        = lastN MAX_ENTRIES (init ++ batch.map entryOfArgs) := by
  induction batch with
  | nil => intro _ h; exact absurd rfl h
  | cons a rest ih =>
    intro init _
    cases rest with
    | nil =>
      simp only [List.foldl, List.map]
      exact applyAppend_eq_lastN init a
    | cons b t =>
      rw [List.foldl_cons, ih (applyAppend init a) (by simp), applyAppend_eq_lastN,
        lastN_append_absorb]
      simp

/-! ### Basic facts about `splitNL` / `pyJoinNL` -/

theorem splitNL_ne_nil (s : Str) : splitNL s ≠ [] := by
  cases s with
  | nil => simp [splitNL]
  | cons c rest =>
    unfold splitNL
    by_cases h : c = '\n'
    · simp [h]
    · simp only [if_neg h]
      rcases splitNL rest with _ | ⟨h', t'⟩ <;> simp

theorem splitNL_cons_newline (rest : Str) : splitNL ('\n' :: rest) = [] :: splitNL rest := by
  conv_lhs => rw [splitNL]
  rw [if_pos rfl]

theorem splitNL_cons_other {c : Char} (rest : Str) (hc : ¬ c = '\n') {h' : Str}
    {t' : List Str} (hr : splitNL rest = h' :: t') :
    splitNL (c :: rest) = (c :: h') :: t' := by
  unfold splitNL
  rw [if_neg hc, hr]

theorem noNL_mem_splitNL (s : Str) : ∀ l ∈ splitNL s, '\n' ∉ l := by
  induction s with
  | nil =>
    intro l hl
    simp only [splitNL, List.mem_singleton] at hl
    subst hl
    simp
  | cons c rest ih =>
    intro l hl
    by_cases h : c = '\n'
    · subst h
      rw [splitNL_cons_newline] at hl
      rcases List.mem_cons.mp hl with hl | hl
      · subst hl; simp
      · exact ih l hl
    · rcases hr : splitNL rest with _ | ⟨h', t'⟩
      · exact absurd hr (splitNL_ne_nil rest)
      · rw [splitNL_cons_other rest h hr] at hl
        rcases List.mem_cons.mp hl with hl | hl
        · subst hl
          intro hc
          rcases List.mem_cons.mp hc with hc | hc
          · exact h hc.symm
          · exact ih h' (by rw [hr]; exact List.mem_cons_self _ _) hc
        · exact ih l (by rw [hr]; exact List.mem_cons_of_mem _ hl)

theorem splitNL_of_noNL {s : Str} (h : '\n' ∉ s) : splitNL s = [s] := by
  induction s with
  | nil => rfl
  | cons c rest ih =>
    have hc : ¬ c = '\n' := fun hc => h (by simp [hc])
    have hrest : '\n' ∉ rest := fun hr => h (List.mem_cons_of_mem _ hr)
    exact splitNL_cons_other rest hc (ih hrest)

theorem splitNL_append_newline (x r : Str) (h : '\n' ∉ x) :
    splitNL (x ++ '\n' :: r) = x :: splitNL r := by
  induction x with
  | nil => simp [splitNL_cons_newline]
  | cons c x' ih =>
    have hc : ¬ c = '\n' := fun hc => h (by simp [hc])
    have hx' : '\n' ∉ x' := fun hr => h (List.mem_cons_of_mem _ hr)
    rw [List.cons_append, splitNL_cons_other _ hc (ih hx')]

theorem splitNL_pyJoinNL : ∀ parts : List Str, parts ≠ [] →
    (∀ p ∈ parts, '\n' ∉ p) → splitNL (pyJoinNL parts) = parts := by
  intro parts
  induction parts with
  | nil => intro h; exact absurd rfl h
  | cons x rest ih =>
    intro _ hmem
    cases rest with
    | nil => exact splitNL_of_noNL (hmem x (List.mem_cons_self _ _))
    | cons y t =>
      show splitNL (x ++ '\n' :: pyJoinNL (y :: t)) = x :: y :: t
      rw [splitNL_append_newline _ _ (hmem x (List.mem_cons_self _ _)),
        ih (by simp) (fun p hp => hmem p (List.mem_cons_of_mem _ hp))]

theorem pyJoinNL_eq_nil : ∀ parts : List Str, pyJoinNL parts = [] →
    parts = [] ∨ parts = [[]] := by
  intro parts h
  match parts with
  | [] => exact Or.inl rfl
  | [x] => exact Or.inr (by simp [pyJoinNL] at h; simp [h])
  | x :: y :: t => simp [pyJoinNL] at h

theorem splitNL_eq_nil_singleton : ∀ s : Str, splitNL s = [[]] → s = [] := by
  intro s h
  cases s with
  | nil => rfl
  | cons c rest =>
    unfold splitNL at h
    by_cases hc : c = '\n'
    · simp only [if_pos hc] at h
      have := splitNL_ne_nil rest
      simp at h
      exact absurd h this
    · simp only [if_neg hc] at h
      rcases hr : splitNL rest with _ | ⟨h', t'⟩
      · exact absurd hr (splitNL_ne_nil rest)
      · rw [hr] at h; simp at h

theorem pyJoinNL_concat : ∀ (A : List Str) (m : Str), A ≠ [] →
    pyJoinNL (A ++ [m]) = pyJoinNL A ++ '\n' :: m := by
  intro A
  induction A with
  | nil => intro m h; exact absurd rfl h
  | cons x rest ih =>
    intro m _
    cases rest with
    | nil => rfl
    | cons y t =>
      show x ++ '\n' :: pyJoinNL ((y :: t) ++ [m]) = (x ++ '\n' :: pyJoinNL (y :: t)) ++ '\n' :: m
      rw [ih m (by simp)]
      simp

/-- Characterization of the lines of a stored snippet: when the stripped
code has more than `CODE_SNIPPET_LINES` lines the snippet's lines are the
first `CODE_SNIPPET_LINES` of them followed by the marker line, otherwise
they are exactly the original lines. -/
theorem pySplitlines_mkSnippet (code : Str) :
    (CODE_SNIPPET_LINES < (pySplitlines (pyStrip code)).length →
      pySplitlines (mkSnippet code)
        = (pySplitlines (pyStrip code)).take CODE_SNIPPET_LINES ++ [TRUNC_MARKER]) ∧
    ((pySplitlines (pyStrip code)).length ≤ CODE_SNIPPET_LINES →
      pySplitlines (mkSnippet code) = pySplitlines (pyStrip code)) := by
  by_cases hst : pyStrip code = []
  · constructor
    · intro hlen
      rw [hst] at hlen
      simp [pySplitlines] at hlen
    · intro _
      simp [mkSnippet, pySplitlines, hst, pyJoinNL, CODE_SNIPPET_LINES]
  · have hps : ∀ s : Str, s ≠ [] → pySplitlines s = splitNL s := by
      intro s h
      simp [pySplitlines, h]
    have hlines : pySplitlines (pyStrip code) = splitNL (pyStrip code) := hps _ hst
    have hne : pySplitlines (pyStrip code) ≠ [] := by
      rw [hlines]; exact splitNL_ne_nil _
    have hnotsingle : pySplitlines (pyStrip code) ≠ [[]] := by
      rw [hlines]
      intro h
      exact hst (splitNL_eq_nil_singleton _ h)
    have hmem : ∀ p ∈ pySplitlines (pyStrip code), '\n' ∉ p := by
      rw [hlines]; exact noNL_mem_splitNL _
    constructor
    · intro hlen
      have hA : (pySplitlines (pyStrip code)).take CODE_SNIPPET_LINES ≠ [] := by
        intro h
        rcases List.take_eq_nil_iff.mp h with h | h
        · simp [CODE_SNIPPET_LINES] at h
        · exact hne h
      have hsn : mkSnippet code
          = pyJoinNL ((pySplitlines (pyStrip code)).take CODE_SNIPPET_LINES ++ [TRUNC_MARKER]) := by
        simp only [mkSnippet, if_pos hlen]
        rw [pyJoinNL_concat _ _ hA]
      have hchunkmem : ∀ p ∈ (pySplitlines (pyStrip code)).take CODE_SNIPPET_LINES
          ++ [TRUNC_MARKER], '\n' ∉ p := by
        intro p hp
        rcases List.mem_append.mp hp with hp | hp
        · exact hmem p (List.take_subset _ _ hp)
        · rw [List.mem_singleton.mp hp]
          decide
      have hsnne : mkSnippet code ≠ [] := by
        rw [hsn]
        intro h
        rcases pyJoinNL_eq_nil _ h with h | h
        · exact hA (List.append_eq_nil.mp h).1
        · have hlen1 := congrArg List.length h
          simp only [List.length_append, List.length_singleton] at hlen1
          exact hA (List.eq_nil_of_length_eq_zero (by omega))
      rw [hps _ hsnne, hsn]
      exact splitNL_pyJoinNL _ (by simp) hchunkmem
    · intro hlen
      have htake : (pySplitlines (pyStrip code)).take CODE_SNIPPET_LINES
          = pySplitlines (pyStrip code) := List.take_of_length_le hlen
      have hsn : mkSnippet code = pyJoinNL (pySplitlines (pyStrip code)) := by
        simp only [mkSnippet, if_neg (by omega : ¬ CODE_SNIPPET_LINES
          < (pySplitlines (pyStrip code)).length)]
        rw [htake]
      have hsnne : mkSnippet code ≠ [] := by
        rw [hsn]
        intro h
        rcases pyJoinNL_eq_nil _ h with h | h
        · exact hne h
        · exact hnotsingle h
      rw [hps _ hsnne, hsn]
      exact splitNL_pyJoinNL _ hne hmem

/-!
### Claim theorems for the Failure Memory Store (C2, C7)
-/

/-- C2: for every initial store state and every non-empty sequence of
`append_failed` calls, the stored list after the last append has length at
most `MAX_ENTRIES`, equals exactly the most recent `MAX_ENTRIES` of the
full chronological sequence (initial records then appended records, in
order), and is a suffix of that sequence — FIFO eviction of exactly the
oldest records.  ("After any call" is covered since `batch` ranges over
every prefix of a longer sequence.) -/
theorem append_failed_fifo_bound (init : List FailureEntry) (batch : List AppendArgs)
    (hne : batch ≠ []) :
    (batch.foldl applyAppend init).length ≤ MAX_ENTRIES ∧
    batch.foldl applyAppend init = lastN MAX_ENTRIES (init ++ batch.map entryOfArgs) ∧
    batch.foldl applyAppend init <:+ init ++ batch.map entryOfArgs := by
  have hfold := foldl_applyAppend batch init hne
  refine ⟨?_, hfold, ?_⟩
  · rw [hfold]
    exact length_lastN _ _
  · rw [hfold]
    exact lastN_isSuffix _ _

theorem append_failed_fifo_bound_witness :
    (([(['x'], (1 : Int), ['e'], ['t'])] : List AppendArgs) ≠ []) ∧
    (([(['x'], (1 : Int), ['e'], ['t'])] : List AppendArgs).foldl applyAppend []).length
      ≤ MAX_ENTRIES :=
  ⟨by decide, (append_failed_fifo_bound [] [(['x'], (1 : Int), ['e'], ['t'])] (by decide)).1⟩

/-- C7 (as stated) is false: appending a 36-line code string stores a
snippet whose line count is 36, because the truncation marker is an extra
line appended after the `CODE_SNIPPET_LINES = 35` kept code lines.  Here
the store after appending one record from the empty store holds exactly one
record whose `code_snippet` has 36 lines. -/
theorem append_roundtrip_snippet_cex :
    (append_failed (pyJoinNL (List.replicate 36 ['a'])) 2 [] [] []).map
        (fun e => (pySplitlines e.code_snippet).length) = [36] := by
  decide

/-- C7 amended: appending a record and then loading the store yields a last
record whose `code_snippet` has at most `CODE_SNIPPET_LINES` lines of the
original (stripped) code plus, exactly when the original exceeded that
bound, one appended truncation marker line — hence at most
`CODE_SNIPPET_LINES + 1 = 36` lines in total. -/
theorem append_roundtrip_snippet_bound (code : Str) (s : Int) (err name : Str)
    (init : List FailureEntry) :
    (append_failed code s err name init).getLast? = some (mkEntry code s err name) ∧
    (pySplitlines (mkEntry code s err name).code_snippet).length ≤ CODE_SNIPPET_LINES + 1 ∧
    ((pySplitlines (pyStrip code)).length ≤ CODE_SNIPPET_LINES →
      pySplitlines (mkEntry code s err name).code_snippet = pySplitlines (pyStrip code)) ∧
    (CODE_SNIPPET_LINES < (pySplitlines (pyStrip code)).length →
      pySplitlines (mkEntry code s err name).code_snippet
        = (pySplitlines (pyStrip code)).take CODE_SNIPPET_LINES ++ [TRUNC_MARKER]) := by
  have hsnip := pySplitlines_mkSnippet code
  have hcs : (mkEntry code s err name).code_snippet = mkSnippet code := rfl
  refine ⟨?_, ?_, fun h => by rw [hcs]; exact hsnip.2 h, fun h => by rw [hcs]; exact hsnip.1 h⟩
  · rw [append_failed_eq_lastN]
    exact getLast?_lastN_concat (by simp [MAX_ENTRIES]) _ _
  · rw [hcs]
    by_cases h : CODE_SNIPPET_LINES < (pySplitlines (pyStrip code)).length
    · rw [hsnip.1 h]
      simp only [List.length_append, List.length_take, List.length_singleton]
      have := (pySplitlines (pyStrip code)).length_take_le CODE_SNIPPET_LINES
      omega
    · rw [hsnip.2 (by omega)]
      omega

theorem append_roundtrip_snippet_bound_witness :
    ((append_failed ['a'] 2 ['e'] ['t'] []).getLast? = some (mkEntry ['a'] 2 ['e'] ['t'])) ∧
    ((pySplitlines (pyStrip ['a'])).length ≤ CODE_SNIPPET_LINES) ∧
    (pySplitlines (mkEntry ['a'] 2 ['e'] ['t']).code_snippet = pySplitlines (pyStrip ['a'])) :=
  ⟨(append_roundtrip_snippet_bound ['a'] 2 ['e'] ['t'] []).1, by decide,
    (append_roundtrip_snippet_bound ['a'] 2 ['e'] ['t'] []).2.2.1 (by decide)⟩

/-! ## `get_past_failures_for_prompt` (failed_store.py lines 57-83) -/

/-- At most this many recent records are rendered (`data[-15:]`). -/
def PROMPT_RECENT : Nat := 15

/-- Errors are truncated to this many characters in the prompt
(`err[:500]`). -/
def ERR_CHAR_LIMIT : Nat := 500

def PF_BANNER : Str :=
  "========== Past failures (avoid similar mistakes) ==========".toList

def PF_INSTRUCTION : Str :=
  "The following generated code failed verification. Do NOT repeat these errors.".toList

def PF_FOOTER : Str := "========== End of past failures ==========".toList

/-- Python `str(n)` for a natural number. -/
def natStr (n : Nat) : Str := (Nat.repr n).toList

/-- Python `str(i)` for an int. -/
def intStr (i : Int) : Str := (toString i).toList

/-- The stanza header line
`f"--- Failure #{i} (task_name={name}, failed at Step {step}) ---"`. -/
def headerLine (i : Nat) (e : FailureEntry) : Str :=
  "--- Failure #".toList ++ natStr i ++ " (task_name=".toList ++ e.task_name
    ++ ", failed at Step ".toList ++ intStr e.failed_step ++ ") ---".toList

/-- The stanza error line
`f"Error: {err[:500]}" + ("..." if len(err) > 500 else "")`. -/
def errLine (e : FailureEntry) : Str :=
  "Error: ".toList ++ e.error.take ERR_CHAR_LIMIT
    ++ (if ERR_CHAR_LIMIT < e.error.length then "...".toList else [])

/-- The four lines (plus the trailing blank) appended to `parts` for one
record in the rendering loop. -/
def stanzaParts (i : Nat) (e : FailureEntry) : List Str :=
  [headerLine i e, errLine e, "Code snippet:".toList, e.code_snippet, []]

/-- `get_past_failures_for_prompt`, as a pure function of the loaded store:
empty string on an empty store, otherwise the banner lines, one stanza per
record of `data[-15:]` (oldest of the window first, enumerated from 1),
and the footer, joined with newlines. -/
def get_past_failures_for_prompt (data : List FailureEntry) : Str :=
  if data = [] then []
  else
    pyJoinNL (([PF_BANNER, PF_INSTRUCTION, []]
        ++ (List.map (fun p => stanzaParts p.1 p.2)
            (List.enumFrom 1 (lastN PROMPT_RECENT data))).flatten)
      ++ [PF_FOOTER])

/-! ### Facts about `pyJoinNL` and containment -/

theorem pyJoinNL_append (xs : List Str) : ∀ ys : List Str, xs ≠ [] → ys ≠ [] →
    pyJoinNL (xs ++ ys) = pyJoinNL xs ++ '\n' :: pyJoinNL ys := by
  induction xs with
  | nil => intro ys h _; exact absurd rfl h
  | cons x rest ih =>
    intro ys _ hys
    cases rest with
    | nil =>
      cases ys with
      | nil => exact absurd rfl hys
      | cons y t => simp [pyJoinNL]
    | cons x' r =>
      show x ++ '\n' :: pyJoinNL ((x' :: r) ++ ys) = (x ++ '\n' :: pyJoinNL (x' :: r)) ++ '\n' :: pyJoinNL ys
      rw [ih ys (by simp) hys]
      simp

theorem pyJoinNL_cons_ne_nil {a : Str} (ha : a ≠ []) (rest : List Str) :
    pyJoinNL (a :: rest) ≠ [] := by
  cases rest with
  | nil => exact ha
  | cons y t =>
    show a ++ '\n' :: pyJoinNL (y :: t) ≠ []
    simp

theorem pyJoinNL_chunk_within (A C B : List Str) (hA : A ≠ []) (hC : C ≠ []) (hB : B ≠ []) :
    pyJoinNL C <:+: pyJoinNL ((A ++ C) ++ B) := by
  have hCB : C ++ B ≠ [] := by
    intro h
    exact hC (List.append_eq_nil.mp h).1
  refine ⟨pyJoinNL A ++ ['\n'], '\n' :: pyJoinNL B, ?_⟩
  rw [List.append_assoc A C B, pyJoinNL_append A (C ++ B) hA hCB,
    pyJoinNL_append C B hC hB]
  simp

/-- A non-empty store renders to a non-empty block (it starts with the
banner line). -/
theorem render_ne_nil (data : List FailureEntry) (h : data ≠ []) :
    get_past_failures_for_prompt data ≠ [] := by
  have hr : get_past_failures_for_prompt data
      = pyJoinNL (([PF_BANNER, PF_INSTRUCTION, []]
          ++ (List.map (fun p => stanzaParts p.1 p.2)
              (List.enumFrom 1 (lastN PROMPT_RECENT data))).flatten)
        ++ [PF_FOOTER]) := by
    simp [get_past_failures_for_prompt, h]
  rw [hr]
  show pyJoinNL (PF_BANNER :: _) ≠ []
  exact pyJoinNL_cons_ne_nil (by simp [PF_BANNER]) _

/-!
### Claim theorem for prompt rendering (C6)
-/

/-- C6: `get_past_failures_for_prompt` returns the empty string on an empty
store; on a non-empty store it returns a non-empty block rendering at most
the `PROMPT_RECENT = 15` most recent records (the rendered window is a
suffix of the store, so the window is chronological, oldest of the window
first as enumerated from 1), and for each record of the window the output
contains the record's whole stanza — in particular its stage number, task
name, stored code snippet, and the error truncated to at most
`ERR_CHAR_LIMIT = 500` characters with the `"..."` marker appended exactly
when the stored error exceeded that limit. -/
theorem render_for_prompt_spec :
    get_past_failures_for_prompt [] = [] ∧
    ∀ data : List FailureEntry, data ≠ [] →
      get_past_failures_for_prompt data ≠ [] ∧
      (lastN PROMPT_RECENT data).length ≤ PROMPT_RECENT ∧
      lastN PROMPT_RECENT data <:+ data ∧
      (∀ i e, (i, e) ∈ List.enumFrom 1 (lastN PROMPT_RECENT data) →
        pyJoinNL (stanzaParts i e) <:+: get_past_failures_for_prompt data ∧
        ("Error: ".toList ++ e.error.take ERR_CHAR_LIMIT
            ++ (if ERR_CHAR_LIMIT < e.error.length then "...".toList else []))
          <:+: get_past_failures_for_prompt data ∧
        (e.error.take ERR_CHAR_LIMIT).length ≤ ERR_CHAR_LIMIT ∧
        intStr e.failed_step <:+: get_past_failures_for_prompt data ∧
        e.task_name <:+: get_past_failures_for_prompt data ∧
        e.code_snippet <:+: get_past_failures_for_prompt data) := by
  refine ⟨rfl, ?_⟩
  intro data hdata
  have hrender : get_past_failures_for_prompt data
      = pyJoinNL (([PF_BANNER, PF_INSTRUCTION, []]
          ++ (List.map (fun p => stanzaParts p.1 p.2)
              (List.enumFrom 1 (lastN PROMPT_RECENT data))).flatten)
        ++ [PF_FOOTER]) := by
    simp [get_past_failures_for_prompt, hdata]
  refine ⟨render_ne_nil data hdata, length_lastN _ _, lastN_isSuffix _ _, ?_⟩
  · intro i e hmem
    have hstan : stanzaParts i e ∈ List.map (fun p => stanzaParts p.1 p.2)
        (List.enumFrom 1 (lastN PROMPT_RECENT data)) := by
      have := List.mem_map_of_mem (fun p : Nat × FailureEntry => stanzaParts p.1 p.2) hmem
      simpa using this
    obtain ⟨s, t, hst⟩ := List.append_of_mem hstan
    have hwithin : pyJoinNL (stanzaParts i e) <:+: get_past_failures_for_prompt data := by
      rw [hrender, hst]
      have hre : ([PF_BANNER, PF_INSTRUCTION, []] ++ (s ++ stanzaParts i e :: t).flatten)
            ++ [PF_FOOTER]
          = (([PF_BANNER, PF_INSTRUCTION, []] ++ s.flatten) ++ stanzaParts i e)
            ++ (t.flatten ++ [PF_FOOTER]) := by
        simp [List.flatten_append, List.append_assoc]
      rw [hre]
      exact pyJoinNL_chunk_within _ _ _ (by simp) (by simp [stanzaParts]) (by simp)
    have hsj : pyJoinNL (stanzaParts i e)
        = headerLine i e ++ '\n' :: (errLine e ++ '\n' :: ("Code snippet:".toList
            ++ '\n' :: (e.code_snippet ++ ['\n']))) := by
      simp [stanzaParts, pyJoinNL]
    have hhdr : headerLine i e <:+: pyJoinNL (stanzaParts i e) :=
      ⟨[], '\n' :: (errLine e ++ '\n' :: ("Code snippet:".toList
          ++ '\n' :: (e.code_snippet ++ ['\n']))), by rw [hsj]; simp⟩
    have herr : errLine e <:+: pyJoinNL (stanzaParts i e) :=
      ⟨headerLine i e ++ ['\n'], '\n' :: ("Code snippet:".toList
          ++ '\n' :: (e.code_snippet ++ ['\n'])), by rw [hsj]; simp⟩
    have hsnip : e.code_snippet <:+: pyJoinNL (stanzaParts i e) :=
      ⟨headerLine i e ++ '\n' :: errLine e ++ '\n' :: "Code snippet:".toList ++ ['\n'],
        ['\n'], by rw [hsj]; simp⟩
    have hstep : intStr e.failed_step <:+: headerLine i e :=
      ⟨"--- Failure #".toList ++ natStr i ++ " (task_name=".toList ++ e.task_name
          ++ ", failed at Step ".toList, ") ---".toList, by simp [headerLine, List.append_assoc]⟩
    have hname : e.task_name <:+: headerLine i e :=
      ⟨"--- Failure #".toList ++ natStr i ++ " (task_name=".toList,
        ", failed at Step ".toList ++ intStr e.failed_step ++ ") ---".toList,
        by simp [headerLine, List.append_assoc]⟩
    refine ⟨hwithin, herr.trans hwithin, ?_, (hstep.trans hhdr).trans hwithin,
      (hname.trans hhdr).trans hwithin, hsnip.trans hwithin⟩
    rw [List.length_take]
    exact min_le_left _ _

theorem render_for_prompt_spec_witness :
    (([⟨['t'], 2, ['b'], ['s']⟩] : List FailureEntry) ≠ []) ∧
    get_past_failures_for_prompt [⟨['t'], 2, ['b'], ['s']⟩] ≠ [] ∧
    ((1, (⟨['t'], 2, ['b'], ['s']⟩ : FailureEntry))
      ∈ List.enumFrom 1 (lastN PROMPT_RECENT [⟨['t'], 2, ['b'], ['s']⟩])) ∧
    (['s'] : Str) <:+: get_past_failures_for_prompt [⟨['t'], 2, ['b'], ['s']⟩] := by
  have h := render_for_prompt_spec.2 [⟨['t'], 2, ['b'], ['s']⟩] (by decide)
  exact ⟨by decide, h.1, by decide, (h.2.2.2 1 ⟨['t'], 2, ['b'], ['s']⟩ (by decide)).2.2.2.2.2⟩

/-! ## `VIMA_Gen/verifier.py` — the three-stage verifier

`verify_task_code` interleaves pure text checks with calls to external
collaborators (`exec` of the candidate, task construction, `VIMAEnvBase`,
`reset`, the oracle policy, `env.step`, `env.close`).  The collaborators'
outcomes are supplied in a `World`; the interpreter returns the verdict
triple together with the trace of the modelled effects: the dynamic load
(`exec`), the completion of environment construction, and every invocation
of the teardown hook `env.close()`. -/

/-- `"def oracle("` (structural check 1). -/
def ORACLE_NEEDLE : Str := "def oracle(".toList

/-- `"self.goals.append("` (structural check 2). -/
def GOALS_NEEDLE : Str := "self.goals.append(".toList

/-- `"self._all_goals = self.goals.copy()"` (structural check 3). -/
def ALLGOALS_NEEDLE : Str := "self._all_goals = self.goals.copy()".toList

def ORACLE_OVERRIDE_MSG : Str :=
  "Should not override oracle(); inherit BaseTask.oracle instead.".toList

def NO_GOALS_MSG : Str :=
  "No self.goals.append(...) found in reset(); oracle has no goals to follow.".toList

def NO_ALLGOALS_MSG : Str :=
  "Missing self._all_goals = self.goals.copy() after setting goals.".toList

def GOALS_EMPTY_MSG : Str := "reset() 后 self.goals 为空，oracle 无法工作。".toList

def ALLGOALS_UNSET_MSG : Str := "reset() 后 self._all_goals 未正确初始化。".toList

def ORACLE_NONE_ACT_MSG : Str := "oracle 返回 None，无法继续。".toList

/-- `repr({})`, the initial value of `info` in the oracle loop. -/
def INIT_INFO_REPR : Str := "\x7b\x7d".toList

/-- `_structural_checks` (verifier.py lines 38-48): three substring tests,
in order; Python `needle in code` is substring containment. -/
def _structural_checks (code : Str) : Bool × Str :=
  if ORACLE_NEEDLE <:+: code then (false, ORACLE_OVERRIDE_MSG)
  else if ¬ (GOALS_NEEDLE <:+: code) then (false, NO_GOALS_MSG)
  else if ¬ (ALLGOALS_NEEDLE <:+: code) then (false, NO_ALLGOALS_MSG)
  else (true, [])

/-- Behaviour of iteration `i` of the Stage-3 oracle loop:
`oracle_fn.act(obs)` raises / returns `None` / the action is taken and
`env.step` raises (clipping errors folded in) / the step returns
`(done, bool(info.get("success")), repr(info))`. -/
inductive StepBehavior
  | actRaises (msg : Str)
  | actNone
  | stepRaises (msg : Str)
  | stepped (done : Bool) (success : Bool) (infoRepr : Str)

/-- Outcomes of all external collaborator calls made by one
`verify_task_code` run.  `Except.error msg` models a raised exception with
`str(e) = msg`.  `loadExec` jointly models `exec`, class-name extraction,
class lookup and the `BaseTask` subtype check inside
`load_task_class_from_code` (all its failure modes collapse to a Stage-1
diagnostic).  `closeAt n` tells whether the `n`-th invocation of
`env.close()` raises, and with which message. -/
structure World where
  loadExec : Except Str Unit
  mkTask : Except Str Unit
  mkEnv : Except Str Unit
  resetEnv : Except Str Unit
  goalsNonempty : Bool
  allGoalsNonempty : Bool
  promptAccess : Except Str Unit
  oracleResult : Except Str Bool
  goalsRepr : Str
  allGoalsRepr : Str
  oracleMaxSteps : Nat
  stepAt : Nat → StepBehavior
  closeAt : Nat → Option Str

/-- The verdict triple `(success, failed_step, error_message)` returned by
`verify_task_code`. -/
structure Verdict where
  passed : Bool
  failed_step : Option Int
  error_message : Option Str
  deriving DecidableEq, Repr

/-- Modelled effects: the dynamic load of the candidate code, completion of
environment construction, and one invocation of `env.close()`. -/
inductive Ev
  | execLoad
  | envMk
  | close
  deriving DecidableEq, Repr

/-- The `RuntimeError` message when `task.oracle(env)` returns `None`
(interpolates the reprs of `task.goals` and `task._all_goals`). -/
def ORACLE_NONE_MSG (w : World) : Str :=
  "task.oracle(env) 返回了 None！检查：goals=".toList ++ w.goalsRepr
    ++ ", _all_goals=".toList ++ w.allGoalsRepr

/-- The Stage-3 diagnostic when the loop ends without success
(interpolates `oracle_max_steps` and the last `info`). -/
def BUDGET_MSG (w : World) (lastInfo : Str) : Str :=
  "在 ".toList ++ natStr w.oracleMaxSteps ++ " 步内未成功完成任务。 info=".toList ++ lastInfo

/-- The Stage-3 `for step in range(oracle_max_steps)` loop: returns the
final `success` flag and last `info` repr, or the raised exception.
`success` is still `False` when the budget is exhausted without `done`. -/
def runOracleLoop (w : World) : Nat → Nat → Str → Except Str (Bool × Str)
  | _, 0, lastInfo => .ok (false, lastInfo)
  | i, fuel + 1, _ =>
    match w.stepAt i with
    | .actRaises m => .error m
    | .actNone => .error ORACLE_NONE_ACT_MSG
    | .stepRaises m => .error m
    | .stepped done succ info =>
      if done then .ok (succ, info)
      else runOracleLoop w (i + 1) fuel info

/-- Stage 3 of `verify_task_code` (verifier.py lines 130-186), entered with
the environment constructed and no prior `close` invocation.  The two
direct `env.close()` calls (lines 169 and 174) are *not* wrapped in
`try/except`: if that first close raises, the outer handler catches it and
invokes `env.close()` a second time (that one wrapped), and the verdict
message becomes the close exception's text. -/
def stage3 (w : World) : Verdict × List Ev :=
  match w.oracleResult with
  | .error e => (⟨false, some 3, some e⟩, [.close])
  | .ok false => (⟨false, some 3, some (ORACLE_NONE_MSG w)⟩, [.close])
  | .ok true =>
    match runOracleLoop w 0 w.oracleMaxSteps INIT_INFO_REPR with
    | .error e => (⟨false, some 3, some e⟩, [.close])
    | .ok (success, lastInfo) =>
      if success then
        match w.closeAt 0 with
        | none => (⟨true, none, none⟩, [.close])
        | some cmsg => (⟨false, some 3, some cmsg⟩, [.close, .close])
      else
        match w.closeAt 0 with
        | none => (⟨false, some 3, some (BUDGET_MSG w lastInfo)⟩, [.close])
        | some cmsg => (⟨false, some 3, some cmsg⟩, [.close, .close])

/-- `verify_task_code` (verifier.py lines 67-186): structural checks, then
dynamic load (Stage 1); construction, environment, reset and post-reset
goal checks (Stage 2, the wrapped close running only when `env` was
assigned); then Stage 3. -/
def verify_task_code (code : Str) (w : World) : Verdict × List Ev :=
  match _structural_checks code with
  | (false, msg) => (⟨false, some 1, some msg⟩, [])
  | (true, _) =>
    match w.loadExec with
    | .error e => (⟨false, some 1, some e⟩, [.execLoad])
    | .ok _ =>
      match w.mkTask with
      | .error e => (⟨false, some 2, some e⟩, [.execLoad])
      | .ok _ =>
        match w.mkEnv with
        | .error e => (⟨false, some 2, some e⟩, [.execLoad])
        | .ok _ =>
          match w.resetEnv with
          | .error e => (⟨false, some 2, some e⟩, [.execLoad, .envMk, .close])
          | .ok _ =>
            if w.goalsNonempty = false then
              (⟨false, some 2, some GOALS_EMPTY_MSG⟩, [.execLoad, .envMk, .close])
            else if w.allGoalsNonempty = false then
              (⟨false, some 2, some ALLGOALS_UNSET_MSG⟩, [.execLoad, .envMk, .close])
            else
              match w.promptAccess with
              | .error e => (⟨false, some 2, some e⟩, [.execLoad, .envMk, .close])
              | .ok _ => ((stage3 w).1, [.execLoad, .envMk] ++ (stage3 w).2)

/-! ### Exhaustive case analyses of the interpreter -/

theorem stage3_cases (w : World) :
    ((stage3 w).1 = ⟨true, none, none⟩ ∨ ∃ m, (stage3 w).1 = ⟨false, some 3, some m⟩) ∧
    ((stage3 w).2 = [Ev.close]
      ∨ ((stage3 w).2 = [Ev.close, Ev.close] ∧ w.closeAt 0 ≠ none)) := by
  unfold stage3
  rcases ho : w.oracleResult with e | b
  · exact ⟨Or.inr ⟨e, rfl⟩, Or.inl rfl⟩
  · cases b
    · exact ⟨Or.inr ⟨_, rfl⟩, Or.inl rfl⟩
    · rcases hL : runOracleLoop w 0 w.oracleMaxSteps INIT_INFO_REPR with e | p
      · exact ⟨Or.inr ⟨e, rfl⟩, Or.inl rfl⟩
      · obtain ⟨succ, info⟩ := p
        cases succ
        · rcases hc : w.closeAt 0 with _ | cmsg
          · exact ⟨Or.inr ⟨_, rfl⟩, Or.inl rfl⟩
          · exact ⟨Or.inr ⟨cmsg, rfl⟩, Or.inr ⟨rfl, by simp⟩⟩
        · rcases hc : w.closeAt 0 with _ | cmsg
          · exact ⟨Or.inl rfl, Or.inl rfl⟩
          · exact ⟨Or.inr ⟨cmsg, rfl⟩, Or.inr ⟨rfl, by simp⟩⟩

theorem verify_cases (code : Str) (w : World) :
    (∃ m, verify_task_code code w = (⟨false, some 1, some m⟩, [])) ∨
    (∃ m, verify_task_code code w = (⟨false, some 1, some m⟩, [Ev.execLoad])) ∨
    (∃ m, verify_task_code code w = (⟨false, some 2, some m⟩, [Ev.execLoad])) ∨
    (∃ m, verify_task_code code w
      = (⟨false, some 2, some m⟩, [Ev.execLoad, Ev.envMk, Ev.close])) ∨
    verify_task_code code w = ((stage3 w).1, [Ev.execLoad, Ev.envMk] ++ (stage3 w).2) := by
  unfold verify_task_code
  rcases hsc : _structural_checks code with ⟨b, msg⟩
  cases b
  · exact Or.inl ⟨msg, rfl⟩
  · rcases hle : w.loadExec with e | u
    · exact Or.inr (Or.inl ⟨e, rfl⟩)
    · rcases hmt : w.mkTask with e | u
      · exact Or.inr (Or.inr (Or.inl ⟨e, rfl⟩))
      · rcases hme : w.mkEnv with e | u
        · exact Or.inr (Or.inr (Or.inl ⟨e, rfl⟩))
        · rcases hre : w.resetEnv with e | u
          · exact Or.inr (Or.inr (Or.inr (Or.inl ⟨e, rfl⟩)))
          · cases hg : w.goalsNonempty
            · exact Or.inr (Or.inr (Or.inr (Or.inl ⟨_, rfl⟩)))
            · cases hag : w.allGoalsNonempty
              · exact Or.inr (Or.inr (Or.inr (Or.inl ⟨_, rfl⟩)))
              · rcases hpa : w.promptAccess with e | u
                · exact Or.inr (Or.inr (Or.inr (Or.inl ⟨e, rfl⟩)))
                · exact Or.inr (Or.inr (Or.inr (Or.inr rfl)))

/-!
### Claim theorems for the verifier (C3, C4, C5, C10)
-/

/-- C3: for every input code string and every collaborator behaviour,
`verify_task_code` returns either `(True, None, None)` or
`(False, s, m)` with `s ∈ {1, 2, 3}` and `m` a non-`None` message — a
verdict is never partially populated. -/
theorem verify_verdict_shape (code : Str) (w : World) :
    (verify_task_code code w).1 = ⟨true, none, none⟩ ∨
    ∃ s m, (verify_task_code code w).1 = ⟨false, some s, some m⟩
      ∧ (s = 1 ∨ s = 2 ∨ s = 3) := by
  rcases verify_cases code w with ⟨m, h⟩ | ⟨m, h⟩ | ⟨m, h⟩ | ⟨m, h⟩ | h
  · exact Or.inr ⟨1, m, by rw [h], Or.inl rfl⟩
  · exact Or.inr ⟨1, m, by rw [h], Or.inl rfl⟩
  · exact Or.inr ⟨2, m, by rw [h], Or.inr (Or.inl rfl)⟩
  · exact Or.inr ⟨2, m, by rw [h], Or.inr (Or.inl rfl)⟩
  · rcases (stage3_cases w).1 with h3 | ⟨m, h3⟩
    · exact Or.inl (by rw [h]; exact h3)
    · exact Or.inr ⟨3, m, by rw [h]; exact h3, Or.inr (Or.inr rfl)⟩

/-- A world in which every collaborator call succeeds: load, construction,
reset and the post-reset checks pass, the oracle policy exists, the first
loop step reports `done` with a truthy success flag, and no `close` call
raises. -/
def wOk : World where
  loadExec := .ok ()
  mkTask := .ok ()
  mkEnv := .ok ()
  resetEnv := .ok ()
  goalsNonempty := true
  allGoalsNonempty := true
  promptAccess := .ok ()
  oracleResult := .ok true
  goalsRepr := []
  allGoalsRepr := []
  oracleMaxSteps := 1
  stepAt := fun _ => .stepped true true INIT_INFO_REPR
  closeAt := fun _ => none

/-- Same as `wOk` except that every invocation of `env.close()` raises. -/
def wCloseBoom : World := { wOk with closeAt := fun _ => some "close failed".toList }

/-- A candidate code string that passes all three structural checks. -/
def CODE_OK : Str :=
  "class TaskX(BaseTask):\n    def reset(self):\n        self.goals.append(g)\n        self._all_goals = self.goals.copy()".toList

set_option maxRecDepth 8192 in
/-- C4 (as stated) is false: in a run in which the environment is
constructed and verification reaches the direct `env.close()` call of the
Stage-3 success path (verifier.py line 174), a raising teardown hook is
invoked a second time by the exception handler (lines 181-185) — the trace
holds two `close` events — and the otherwise fully successful run is
reported as a Stage-3 failure. -/
theorem verify_close_exactly_once_cex :
    Ev.envMk ∈ (verify_task_code CODE_OK wCloseBoom).2 ∧
    (verify_task_code CODE_OK wCloseBoom).2.count Ev.close = 2 ∧
    (verify_task_code CODE_OK wCloseBoom).1.passed = false := by
  refine ⟨?_, ?_, ?_⟩ <;> decide

/-- C4 amended: in every run in which the simulation environment is
constructed, the teardown hook is invoked at least once and at most twice
on every exit path, and exactly once provided its first invocation does
not itself raise; the double invocation happens only when a direct Stage-3
`env.close()` call raises and the exception handler closes again. -/
theorem verify_close_invocations (code : Str) (w : World)
    (henv : Ev.envMk ∈ (verify_task_code code w).2) :
    ((verify_task_code code w).2.count Ev.close = 1 ∨
      (verify_task_code code w).2.count Ev.close = 2) ∧
    (w.closeAt 0 = none → (verify_task_code code w).2.count Ev.close = 1) := by
  rcases verify_cases code w with ⟨m, h⟩ | ⟨m, h⟩ | ⟨m, h⟩ | ⟨m, h⟩ | h
  · rw [h] at henv; simp at henv
  · rw [h] at henv; simp at henv
  · rw [h] at henv; simp at henv
  · rw [h]
    exact ⟨Or.inl rfl, fun _ => rfl⟩
  · rw [h]
    rcases (stage3_cases w).2 with h2 | ⟨h2, hcl⟩
    · rw [h2]
      exact ⟨Or.inl rfl, fun _ => rfl⟩
    · rw [h2]
      exact ⟨Or.inr rfl, fun h0 => absurd h0 hcl⟩

set_option maxRecDepth 8192 in
theorem verify_close_invocations_witness :
    (Ev.envMk ∈ (verify_task_code CODE_OK wOk).2) ∧
    (verify_task_code CODE_OK wOk).2.count Ev.close = 1 :=
  ⟨by decide, (verify_close_invocations CODE_OK wOk (by decide)).2 rfl⟩

/-- C5: every input string containing the substring `def oracle(` anywhere
is rejected at Stage 1 with the oracle-override diagnostic, whatever the
surrounding content and whatever the collaborators would have done — and
nothing is executed (empty effect trace). -/
theorem verify_oracle_needle_stage1 (code : Str) (w : World)
    (h : ORACLE_NEEDLE <:+: code) :
    verify_task_code code w = (⟨false, some 1, some ORACLE_OVERRIDE_MSG⟩, []) := by
  have hsc : _structural_checks code = (false, ORACLE_OVERRIDE_MSG) := by
    unfold _structural_checks
    rw [if_pos h]
  unfold verify_task_code
  rw [hsc]

theorem verify_oracle_needle_stage1_witness :
    (ORACLE_NEEDLE <:+: "x = 1\ndef oracle(self): pass".toList) ∧
    verify_task_code "x = 1\ndef oracle(self): pass".toList wOk
      = (⟨false, some 1, some ORACLE_OVERRIDE_MSG⟩, []) :=
  ⟨by decide, verify_oracle_needle_stage1 _ wOk (by decide)⟩

/-- C10: whenever any Stage-1 structural text check fails (oracle override
present, goal-registration call absent, or snapshot-finalization
assignment absent), `verify_task_code` returns the Stage-1 failure verdict
with the structural diagnostic and an empty effect trace: the dynamic load
is never reached, so the untrusted candidate code is never executed. -/
theorem verify_structural_reject_no_exec (code : Str) (w : World)
    (h : ORACLE_NEEDLE <:+: code ∨ ¬ (GOALS_NEEDLE <:+: code)
      ∨ ¬ (ALLGOALS_NEEDLE <:+: code)) :
    (_structural_checks code).1 = false ∧
    verify_task_code code w = (⟨false, some 1, some (_structural_checks code).2⟩, []) := by
  have hsc : (_structural_checks code).1 = false := by
    unfold _structural_checks
    rcases h with h | h | h
    · rw [if_pos h]
    · by_cases h1 : ORACLE_NEEDLE <:+: code
      · rw [if_pos h1]
      · rw [if_neg h1, if_pos h]
    · by_cases h1 : ORACLE_NEEDLE <:+: code
      · rw [if_pos h1]
      · rw [if_neg h1]
        by_cases h2 : ¬ (GOALS_NEEDLE <:+: code)
        · rw [if_pos h2]
        · rw [if_neg h2, if_pos h]
  refine ⟨hsc, ?_⟩
  unfold verify_task_code
  rcases hp : _structural_checks code with ⟨b, msg⟩
  rw [hp] at hsc
  simp at hsc
  subst hsc
  rfl

theorem verify_structural_reject_no_exec_witness :
    (ORACLE_NEEDLE <:+: (['x'] : Str) ∨ ¬ (GOALS_NEEDLE <:+: (['x'] : Str))
      ∨ ¬ (ALLGOALS_NEEDLE <:+: (['x'] : Str))) ∧
    verify_task_code ['x'] wOk
      = (⟨false, some 1, some (_structural_checks ['x']).2⟩, []) :=
  ⟨by decide, (verify_structural_reject_no_exec ['x'] wOk (by decide)).2⟩

/-! ## `VIMA_Gen/cli.py` — the generation loop

`main()` builds the retriever, the API-reference text and the
failure-memory text once (line 78: `past_failures_text =
get_past_failures_for_prompt()`), then runs `n` candidate iterations.
Each iteration calls `propose_new_task` (a raising call skips the
candidate), `generate_new_task_code` (receiving `past_failures_text`; a
raising call skips the candidate) and `verify_task_code`; on a failed
verdict with populated stage and message, `append_failed` runs before the
next candidate begins (lines 125-128). -/

/-- One candidate iteration's collaborator outcomes. -/
inductive CandSpec
  | proposeFail
  | generateFail (name : Str)
  | gen (name : Str) (code : Str) (w : World)

/-- The store update of one loop iteration (cli.py lines 125-128),
mirroring `if not ok and failed_step is not None and error_msg is not
None: append_failed(...)`. -/
def candStep (store : List FailureEntry) : CandSpec → List FailureEntry
  | .proposeFail => store
  | .generateFail _ => store
  | .gen name code w =>
    match (verify_task_code code w).1.failed_step,
        (verify_task_code code w).1.error_message with
    | some s, some m =>
      if (verify_task_code code w).1.passed = false then append_failed code s m name store
      else store
    | _, _ => store

/-- The `past_failures_text` argument a candidate's
`generate_new_task_code` call receives, when that call is reached
(`none` when the candidate is skipped at the proposal step). -/
def candPrompt (past : Str) : CandSpec → Option Str
  | .proposeFail => none
  | .generateFail _ => some past
  | .gen _ _ _ => some past

/-- Store state at the start of each candidate (index `j`), and after the
last one (index `cands.length`). -/
def mainStores (store0 : List FailureEntry) (cands : List CandSpec) :
    List (List FailureEntry) :=
  List.scanl candStep store0 cands

/-- The failure-memory text received by each candidate's generation call:
`get_past_failures_for_prompt` runs once, before the loop (cli.py line
78), on the store as it was when the run began. -/
def mainPrompts (store0 : List FailureEntry) (cands : List CandSpec) :
    List (Option Str) :=
  cands.map (candPrompt (get_past_failures_for_prompt store0))

theorem scanl_get?_zero {α β : Type} (f : β → α → β) (c : β) (l : List α) :
    (List.scanl f c l).get? 0 = some c := by
  cases l <;> simp [List.scanl]

theorem scanl_get?_succ {α β : Type} (f : β → α → β) :
    ∀ (l : List α) (b : β) (j : Nat) (a : α), l.get? j = some a →
      ∃ st, (List.scanl f b l).get? j = some st
        ∧ (List.scanl f b l).get? (j + 1) = some (f st a) := by
  intro l
  induction l with
  | nil => intro b j a h; simp at h
  | cons x t ih =>
    intro b j a h
    cases j with
    | zero =>
      simp at h
      subst h
      exact ⟨b, scanl_get?_zero f b _, by simp [List.scanl, scanl_get?_zero]⟩
    | succ j' =>
      simp only [List.get?_cons_succ] at h
      obtain ⟨st, h1, h2⟩ := ih (f b x) j' a h
      exact ⟨st, by simpa [List.scanl] using h1, by simpa [List.scanl] using h2⟩

/-!
### Claim theorems for the generation loop (C1)
-/

/-- A candidate whose code fails structural check 2
(no `self.goals.append(`): the proposal named it `n`, the code is `"x"`. -/
def cand1 : CandSpec := .gen ['n'] ['x'] wOk

/-- A second candidate in the same run. -/
def cand2 : CandSpec := .gen ['m'] ['y'] wOk

def cexCands : List CandSpec := [cand1, cand2]

set_option maxRecDepth 8192 in
/-- C1 (as stated) is false: starting from an empty store, candidate 1
fails verification and its `FailureRecord` is appended before candidate 2
begins — but candidate 2's generation prompt receives the failure-memory
text rendered once before the loop (the empty string, since the store was
empty when the run began), not text reflecting candidate 1's failure: the
render of the store candidate 2 actually starts with is non-empty. -/
theorem cli_loop_feedback_cex :
    (mainPrompts [] cexCands).get? 1 = some (some []) ∧
    (mainStores [] cexCands).get? 1 = some [mkEntry ['x'] 1 NO_GOALS_MSG ['n']] ∧
    get_past_failures_for_prompt [mkEntry ['x'] 1 NO_GOALS_MSG ['n']] ≠ [] := by
  refine ⟨rfl, by decide, render_ne_nil _ (by decide)⟩

/-- C1 amended: whenever candidate `j` fails verification with a populated
verdict, its record is appended to the store before candidate `j + 1`
begins; and every candidate's generation prompt receives the same
failure-memory text, rendered once before the first candidate from the
store as it was at the start of the run (so failures of the same run are
persisted, but not injected into later candidates' prompts within that
run). -/
theorem cli_loop_feedback (store0 : List FailureEntry) (cands : List CandSpec) :
    (∀ j stj name code w s m,
      (mainStores store0 cands).get? j = some stj →
      cands.get? j = some (.gen name code w) →
      (verify_task_code code w).1 = ⟨false, some s, some m⟩ →
      (mainStores store0 cands).get? (j + 1)
        = some (append_failed code s m name stj)) ∧
    (∀ j p, (mainPrompts store0 cands).get? j = some p →
      p = none ∨ p = some (get_past_failures_for_prompt store0)) := by
  constructor
  · intro j stj name code w s m hstj hcand hverd
    obtain ⟨st, h1, h2⟩ := scanl_get?_succ candStep cands store0 j _ hcand
    have hst : st = stj := by
      simp only [mainStores] at hstj
      rw [h1] at hstj
      exact Option.some.inj hstj
    subst hst
    have hstep : candStep st (CandSpec.gen name code w)
        = append_failed code s m name st := by
      simp [candStep, hverd]
    simp only [mainStores]
    rw [h2, hstep]
  · intro j p hp
    simp only [mainPrompts, List.get?_map] at hp
    rcases Option.map_eq_some'.mp hp with ⟨c, hc, hcp⟩
    cases c with
    | proposeFail => exact Or.inl hcp.symm
    | generateFail name => exact Or.inr hcp.symm
    | gen name code w => exact Or.inr hcp.symm

theorem cli_loop_feedback_witness :
    ((mainStores [] cexCands).get? 0 = some [] ∧
     cexCands.get? 0 = some (CandSpec.gen ['n'] ['x'] wOk) ∧
     (verify_task_code ['x'] wOk).1 = ⟨false, some 1, some NO_GOALS_MSG⟩) ∧
    (mainStores [] cexCands).get? 1
      = some (append_failed ['x'] 1 NO_GOALS_MSG ['n'] []) ∧
    ((mainPrompts [] cexCands).get? 0 = some (some (get_past_failures_for_prompt []))) := by
  refine ⟨⟨rfl, rfl, by decide⟩, ?_, ?_⟩
  · exact (cli_loop_feedback [] cexCands).1 0 [] ['n'] ['x'] wOk 1 NO_GOALS_MSG
      rfl rfl (by decide)
  · rcases (cli_loop_feedback [] cexCands).2 0 (some (get_past_failures_for_prompt []))
        rfl with h | h
    · exact absurd h (by decide)
    · rfl

/-! ## The durable failure-memory file — `_load_raw`
(failed_store.py lines 19-27) -/

/-- A decoded JSON value (the result of a successful `json.load`). -/
inductive JsonVal
  | null
  | bool (b : Bool)
  | num (n : Int)
  | str (s : Str)
  | arr (elems : List JsonVal)
  | obj (fields : List (Str × JsonVal))

/-- Python exception classes relevant to the modelled file operations. -/
inductive PyExc
  | osError
  | jsonDecodeError
  | unicodeDecodeError
  deriving DecidableEq, Repr

/-- State of the failure-memory file as seen by `_load_raw`: absent
(`os.path.isfile` is false); an `OSError` raised on open/read; bytes that
are not valid UTF-8 (the text-mode read inside `json.load` raises
`UnicodeDecodeError`); readable text that is not valid JSON
(`json.JSONDecodeError`); or a decoded JSON value. -/
inductive FileState
  | absent
  | openFails
  | undecodable
  | invalidJson
  | parsed (v : JsonVal)

/-- Outcome of `open(path, "r", encoding="utf-8")` followed by
`json.load(f)` on a present file. -/
def openAndJsonLoad : FileState → Except PyExc JsonVal
  | .absent => .error .osError
  | .openFails => .error .osError
  | .undecodable => .error .unicodeDecodeError
  | .invalidJson => .error .jsonDecodeError
  | .parsed v => .ok v

/-- Which exceptions the `except (json.JSONDecodeError, OSError)` clause
of `_load_raw` catches.  `UnicodeDecodeError` subclasses `ValueError` but
neither `json.JSONDecodeError` nor `OSError`, so it is not caught. -/
def caughtByLoadHandler : PyExc → Bool
  | .jsonDecodeError => true
  | .osError => true
  | .unicodeDecodeError => false

/-- `_load_raw` (failed_store.py lines 19-27): a missing file loads as
`[]`; a caught exception in the `try` block loads as `[]`; an uncaught
exception propagates; a decoded value that is not a list loads as `[]`
(the `isinstance(data, list)` check).  Both `append_failed` and
`get_past_failures_for_prompt` load the store through this function. -/
def _load_raw (fs : FileState) : Except PyExc (List JsonVal) :=
  match fs with
  | .absent => .ok []
  | _ =>
    match openAndJsonLoad fs with
    | .error e => if caughtByLoadHandler e then .ok [] else .error e
    | .ok v =>
      match v with
      | .arr l => .ok l
      | _ => .ok []

/-!
### Claim theorems for store loading (C8)
-/

/-- C8 (as stated) is false: a failure-memory file whose bytes are not
valid UTF-8 — unreadable/malformed content — makes `_load_raw` raise an
uncaught `UnicodeDecodeError` (the read inside `json.load` raises it, and
`except (json.JSONDecodeError, OSError)` catches neither), instead of
degrading to the empty list. -/
theorem load_raw_never_raises_cex :
    _load_raw FileState.undecodable = .error PyExc.unicodeDecodeError := rfl

/-- C8 amended: for every file state except undecodable bytes, `_load_raw`
returns without raising; an absent file, an `OSError` on open/read, and
content that is not valid JSON all load as the empty list, as does a
decoded value whose top level is not a list.  (A file whose bytes are not
valid UTF-8 raises `UnicodeDecodeError`, which neither caller catches.) -/
theorem load_raw_degrades (fs : FileState) (h : fs ≠ FileState.undecodable) :
    (∃ l, _load_raw fs = .ok l) ∧
    ((fs = .absent ∨ fs = .openFails ∨ fs = .invalidJson) → _load_raw fs = .ok []) ∧
    (∀ v, fs = .parsed v → (∀ es, v ≠ .arr es) → _load_raw fs = .ok []) := by
  cases fs with
  | absent => exact ⟨⟨[], rfl⟩, fun _ => rfl, fun v hv => by cases hv⟩
  | openFails => exact ⟨⟨[], rfl⟩, fun _ => rfl, fun v hv => by cases hv⟩
  | undecodable => exact absurd rfl h
  | invalidJson => exact ⟨⟨[], rfl⟩, fun _ => rfl, fun v hv => by cases hv⟩
  | parsed v =>
    refine ⟨?_, ?_, ?_⟩
    · cases v with
      | null => exact ⟨[], rfl⟩
      | bool b => exact ⟨[], rfl⟩
      | num n => exact ⟨[], rfl⟩
      | str s => exact ⟨[], rfl⟩
      | arr es => exact ⟨es, rfl⟩
      | obj fields => exact ⟨[], rfl⟩
    · intro hor
      rcases hor with h' | h' | h' <;> cases h'
    · intro v' hv' hne
      injection hv' with hv'
      subst hv'
      cases v with
      | null => rfl
      | bool b => rfl
      | num n => rfl
      | str s => rfl
      | arr es => exact absurd rfl (hne es)
      | obj fields => rfl

theorem load_raw_degrades_witness :
    (FileState.invalidJson ≠ FileState.undecodable) ∧
    _load_raw FileState.invalidJson = .ok [] :=
  ⟨fun h => FileState.noConfusion h,
    (load_raw_degrades FileState.invalidJson (fun h => FileState.noConfusion h)).2.1
      (Or.inr (Or.inr rfl))⟩

/-! ## `VIMA_Gen/task_index.py` — generated-task corpus documents

The regexes of the source are translated to deterministic scanners: each
pattern interleaves literals, `\s*`/`\s+` runs and greedy character
classes whose alphabets are disjoint from what follows, so greedy matching
without backtracking is exact.  `\w` and the identifier classes are
modelled over ASCII. -/

/-- One retrievable task document (the `TaskDoc` dataclass). -/
structure TaskDoc where
  id : Str
  origin : Str
  group : Str
  task_name : Str
  class_name : Option Str
  module : Option Str
  text : Str
  deriving DecidableEq, Repr

/-- The character class `[A-Za-z0-9_\/\-]` of the group pattern. -/
def isGroupChar (c : Char) : Bool :=
  c.isAlpha || c.isDigit || c = '_' || c = '/' || c = '-'

/-- `\w` = `[A-Za-z0-9_]`. -/
def isWordChar (c : Char) : Bool := c.isAlphanum || c = '_'

/-- The single-quote character. -/
def SQ : Char := Char.ofNat 39

/-- The quote class `["\']`. -/
def isQuote (c : Char) : Bool := c = '"' || c = SQ

/-- Match a literal at the front, returning the remainder on success. -/
def matchLit : Str → Str → Option Str
  | [], s => some s
  | _ :: _, [] => none
  | c :: cs, d :: ds => if c = d then matchLit cs ds else none

/-- Try `#\s*group\s*:\s*([A-Za-z0-9_\/\-]+)` at this position (as in
Python `re`, `\s` may span newlines); returns the capture. -/
def matchGroupAt (s : Str) : Option Str :=
  match s with
  | '#' :: rest =>
    match matchLit "group".toList (rest.dropWhile (fun c => isPyWs c)) with
    | none => none
    | some r2 =>
      match r2.dropWhile (fun c => isPyWs c) with
      | ':' :: r4 =>
        let cap := (r4.dropWhile (fun c => isPyWs c)).takeWhile isGroupChar
        if cap = [] then none else some cap
      | _ => none
  | _ => none

/-- `re.search` with a `^`-anchored pattern under `re.MULTILINE`: try the
matcher at the string start and after every newline, leftmost first. -/
def searchLineStarts (m : Str → Option Str) : Str → Bool → Option Str
  | [], _ => none
  | c :: rest, atStart =>
    if atStart then
      match m (c :: rest) with
      | some r => some r
      | none => searchLineStarts m rest (c = '\n')
    else searchLineStarts m rest (c = '\n')

/-- `_infer_group_from_text` (task_index.py lines 82-90): the
`# group: <value>` line convention, else `"generated"`. -/
def _infer_group_from_text (text : Str) : Str :=
  match searchLineStarts matchGroupAt text true with
  | some cap => pyStrip cap
  | none => "generated".toList

/-- Try `task_name\s*=\s*["\']([^"\']+)["\']` at this position. -/
def matchTaskNameAt (s : Str) : Option Str :=
  match matchLit "task_name".toList s with
  | none => none
  | some r1 =>
    match r1.dropWhile (fun c => isPyWs c) with
    | '=' :: r3 =>
      match r3.dropWhile (fun c => isPyWs c) with
      | q :: r5 =>
        if isQuote q then
          let cap := r5.takeWhile (fun c => ¬ isQuote c)
          if cap = [] then none
          else if r5.dropWhile (fun c => ¬ isQuote c) = [] then none
          else some cap
        else none
      | [] => none
    | _ => none

/-- Unanchored `re.search`: try the matcher at every position, leftmost
first. -/
def searchAnywhere (m : Str → Option Str) : Str → Option Str
  | [] => m []
  | c :: rest =>
    match m (c :: rest) with
    | some r => some r
    | none => searchAnywhere m rest

/-- `extract_task_name_literal` (verifier.py lines 33-35): the capture of
the first `task_name = "<literal>"` match, without stripping. -/
def extract_task_name_literal (code : Str) : Option Str :=
  searchAnywhere matchTaskNameAt code

/-- `os.path.basename`: the part after the last `/`. -/
def pyBasename (p : Str) : Str :=
  (p.reverse.takeWhile (fun c => ¬ c = '/')).reverse

/-- The stem of `os.path.splitext`: drop the extension starting at the
last dot, unless every character before that dot is itself a dot. -/
def pySplitextStem (name : Str) : Str :=
  let afterDot := name.reverse.takeWhile (fun c => ¬ c = '.')
  if afterDot.length = name.length then name
  else
    let pre := name.take (name.length - afterDot.length - 1)
    if pre.any (fun c => ¬ c = '.') then pre else name

/-- `_infer_task_name_from_text` (task_index.py lines 93-99): the stripped
capture, else the filename stem. -/
def _infer_task_name_from_text (path text : Str) : Str :=
  match searchAnywhere matchTaskNameAt text with
  | some cap => pyStrip cap
  | none => pySplitextStem (pyBasename path)

/-- Try `class\s+([A-Za-z_][A-Za-z0-9_]*)\s*\(` at this position. -/
def matchClassAt (s : Str) : Option Str :=
  match matchLit "class".toList s with
  | none => none
  | some r1 =>
    match r1 with
    | c1 :: _ =>
      if isPyWs c1 then
        match r1.dropWhile (fun c => isPyWs c) with
        | d :: r3 =>
          if d.isAlpha || d = '_' then
            let tailCap := r3.takeWhile isWordChar
            match (r3.dropWhile isWordChar).dropWhile (fun c => isPyWs c) with
            | '(' :: _ => some (d :: tailCap)
            | _ => none
          else none
        | [] => none
      else none
    | [] => none

/-- `_infer_class_name_from_text` (task_index.py lines 102-104). -/
def _infer_class_name_from_text (text : Str) : Option Str :=
  searchAnywhere matchClassAt text

/-- Outcome of `open(path, "r", encoding="utf-8")` + `f.read()` for one
directory entry: an `OSError`; a `UnicodeDecodeError` (bytes not valid
UTF-8); or the decoded text. -/
inductive FileRead
  | osErr
  | decodeErr
  | ok (text : Str)

/-- State of the `generated_tasks` directory. -/
inductive DirState
  | missing
  | present (files : List (Str × FileRead))

def PY_EXT : Str := ".py".toList

/-- The `TaskDoc` built for one generated task file (task_index.py lines
133-146). -/
def mkGenDoc (fname text : Str) : TaskDoc :=
  { id := "generated::".toList ++ fname
    origin := "generated".toList
    group := _infer_group_from_text text
    task_name := _infer_task_name_from_text fname text
    class_name := _infer_class_name_from_text text
    module := none
    text := text }

/-- The body of `for fname in sorted(os.listdir(gen_dir))`: skip names
not ending in `.py`; `except OSError: continue` skips an unreadable file;
a `UnicodeDecodeError` from `f.read()` is caught by nothing and aborts
the whole call. -/
def processFiles : List (Str × FileRead) → Except PyExc (List TaskDoc)
  | [] => .ok []
  | (fname, fr) :: rest =>
    if ¬ (PY_EXT <:+ fname) then processFiles rest
    else
      match fr with
      | .osErr => processFiles rest
      | .decodeErr => .error .unicodeDecodeError
      | .ok text =>
        match processFiles rest with
        | .error e => .error e
        | .ok docs => .ok (mkGenDoc fname text :: docs)

/-- Lexicographic comparison of strings by code point (Python `sorted`). -/
def strLe : Str → Str → Bool
  | [], _ => true
  | _ :: _, [] => false
  | c :: cs, d :: ds => if c = d then strLe cs ds else decide (c < d)

def insertSorted (x : Str × FileRead) :
    List (Str × FileRead) → List (Str × FileRead)
  | [] => [x]
  | y :: ys => if strLe x.1 y.1 then x :: y :: ys else y :: insertSorted x ys

/-- `sorted(os.listdir(gen_dir))` as an insertion sort on filenames. -/
def sortFiles : List (Str × FileRead) → List (Str × FileRead)
  | [] => []
  | x :: xs => insertSorted x (sortFiles xs)

/-- `load_generated_task_docs` (task_index.py lines 107-147): a missing
directory yields zero documents; otherwise the sorted listing is
processed.  The second component collects every log or print message the
function emits — the source contains none. -/
def load_generated_task_docs (ds : DirState) : Except PyExc (List TaskDoc) × List Str :=
  match ds with
  | .missing => (.ok [], [])
  | .present files => (processFiles (sortFiles files), [])

/-- `FileRead.osErr` recognizer (the skipped case). -/
def isOsErr : FileRead → Bool
  | .osErr => true
  | _ => false

/-!
### Claim theorems for the corpus builder's failure policy (C9)
-/

/-- C9 (as stated) is false on two counts, shown on concrete directories:
a directory holding an `OSError`-unreadable `a.py` and a readable `b.py`
yields only `b.py`'s document with an empty log — the skip is silent, not
logged; and a directory holding a `c.py` whose bytes cannot be decoded
makes the call raise an uncaught `UnicodeDecodeError` instead of skipping
the file. -/
theorem load_generated_skip_cex :
    load_generated_task_docs (.present [("a.py".toList, FileRead.osErr),
        ("b.py".toList, FileRead.ok [])])
      = (.ok [mkGenDoc "b.py".toList []], []) ∧
    load_generated_task_docs (.present [("c.py".toList, FileRead.decodeErr)])
      = (.error .unicodeDecodeError, []) := by
  constructor
  · rfl
  · rfl

/-- C9 amended: a missing generated-task directory yields zero documents
and no error; the function logs nothing on any input; files whose
open/read raises `OSError` are skipped silently while the remaining files
are still processed (removing them from the listing leaves the result
unchanged); but a `.py` file whose bytes cannot be decoded as UTF-8 aborts
the scan with an uncaught `UnicodeDecodeError`. -/
theorem load_generated_docs_policy :
    (load_generated_task_docs .missing = (.ok [], [])) ∧
    (∀ ds, (load_generated_task_docs ds).2 = []) ∧
    (∀ files : List (Str × FileRead),
      processFiles (files.filter (fun f => ! isOsErr f.2)) = processFiles files) ∧
    (∀ (fname : Str) (rest : List (Str × FileRead)), PY_EXT <:+ fname →
      processFiles ((fname, FileRead.decodeErr) :: rest)
        = .error .unicodeDecodeError) := by
  refine ⟨rfl, ?_, ?_, ?_⟩
  · intro ds
    cases ds <;> rfl
  · intro files
    induction files with
    | nil => rfl
    | cons f rest ih =>
      obtain ⟨fname, fr⟩ := f
      rw [List.filter_cons]
      cases fr with
      | osErr =>
        rw [if_neg (by simp [isOsErr])]
        rw [ih]
        by_cases hpy : PY_EXT <:+ fname <;> simp [processFiles, hpy]
      | decodeErr =>
        rw [if_pos (by simp [isOsErr])]
        by_cases hpy : PY_EXT <:+ fname <;> simp [processFiles, hpy, ih]
      | ok text =>
        rw [if_pos (by simp [isOsErr])]
        by_cases hpy : PY_EXT <:+ fname <;> simp [processFiles, hpy, ih]
  · intro fname rest hpy
    simp [processFiles, hpy]

theorem load_generated_docs_policy_witness :
    (PY_EXT <:+ "c.py".toList) ∧
    processFiles [("c.py".toList, FileRead.decodeErr)] = .error .unicodeDecodeError :=
  ⟨by decide, load_generated_docs_policy.2.2.2 "c.py".toList [] (by decide)⟩

end VIMAGen
